import Mathlib

/-!
# Verification of the twitter_cz monitoring pipeline

Shallow embedding of the core of the repository:

* `GroupMessageListener.processTweetLinks` (src/src/listener/GroupMessageListener.js,
  lines 195-247): per-listener deduplication of extracted tweet links, batch
  emission, and trimming of the in-memory dedup set.
* `AccountAssigner` (src/unnamed/part_005): worker-account pool, load-balanced
  selection, task queue, per-task processing, retry/error handling.
* `MultiGroupListener` (src/unnamed/part_006): registry of group listeners,
  add/remove/restart operations.
* `TwitterMonitorSystem.initializeAccountAssigner`
  (src/src/monitor/TwitterMonitorSystem.js, lines 112-125).

Timestamps (`new Date().toISOString()`) are modelled as natural numbers
(epoch milliseconds); `new Date(s).getTime()` on a `null` value is modelled by
mapping `none` to `0`, exactly as the JavaScript comparator does.
External effects (auth sessions, tweet fetches, AI replies, posting) are
modelled as oracle inputs describing what the external call returned.
-/

namespace TwitterCz

/-! ## Source Listener: `GroupMessageListener.processTweetLinks`

A tweet link extracted from a group notification.  The dedup logic of
`processTweetLinks` depends only on `link.statusId`; the other fields
(`fullUrl`, `username`, `tweetPath`) are carried into the emitted
`tweetInfo` unchanged and are irrelevant to every claim, so a link is
modelled by its `statusId`. -/
structure Link where
  statusId : Nat
deriving DecidableEq, Repr

/-- In-memory state of one `GroupMessageListener` that `processTweetLinks`
touches: `processedTweets` is the JS `Set` in insertion order (a JS `Set`
iterates in insertion order, `Set.add` appends), `tweetsFound` is
`stats.tweetsFound`. -/
structure ListenerState where
  processedTweets : List Nat
  tweetsFound : Nat
deriving DecidableEq, Repr

/-- The `for (const link of tweetLinks)` loop of `processTweetLinks`
(lines 199-221): returns the updated set (insertion order preserved,
new ids appended at the end) together with the list of newly discovered
tweet ids, in discovery order. -/
def processLoop : List Link → List Nat → List Nat × List Nat
  | [], seen => (seen, [])
  | l :: ls, seen =>
    if l.statusId ∈ seen then
      processLoop ls seen
    else
      let r := processLoop ls (seen ++ [l.statusId])
      (r.1, l.statusId :: r.2)

/-- Lines 236-246: if the set holds more than 1000 ids it is replaced by
`Array.from(set).slice(-800)`, i.e. the most recently inserted 800. -/
def trimProcessed (seen : List Nat) : List Nat :=
  if seen.length > 1000 then seen.drop (seen.length - 800) else seen

/-- `GroupMessageListener.processTweetLinks` (lines 195-247).  Returns the
state after the call and the batch carried by the single `newTweetsFound`
event, `none` when no event is emitted (the event fires exactly when
`newTweets.length > 0`, line 224, and fires before the trim of lines
236-246). -/
def processTweetLinks (links : List Link) (s : ListenerState) :
    ListenerState × Option (List Nat) :=
  let r := processLoop links s.processedTweets
  let ev := if r.2.length > 0 then some r.2 else none
  ({ processedTweets := trimProcessed r.1,
     tweetsFound := s.tweetsFound + r.2.length }, ev)

/-- A sequence of poll cycles of one listener: each cycle feeds its extracted
links through `processTweetLinks`; the per-cycle emitted batches are collected
(an empty list for a cycle that emitted nothing). -/
def runCycles : List (List Link) → ListenerState → ListenerState × List (List Nat)
  | [], s => (s, [])
  | links :: rest, s =>
    let r := processTweetLinks links s
    let rr := runCycles rest r.1
    (rr.1, (r.2.getD []) :: rr.2)

/-! ### Basic lemmas about the dedup loop -/

theorem processLoop_seen_grows (links : List Link) (seen : List Nat) {x : Nat}
    (hx : x ∈ seen) : x ∈ (processLoop links seen).1 := by
  induction links generalizing seen with
  | nil => simpa [processLoop] using hx
  | cons l ls ih =>
    by_cases h : l.statusId ∈ seen
    · simpa [processLoop, h] using ih seen hx
    · simp only [processLoop, h, if_neg, ite_false]
      exact ih (seen ++ [l.statusId]) (List.mem_append_left _ hx)

theorem processLoop_not_emitted (links : List Link) (seen : List Nat) {x : Nat}
    (hx : x ∈ seen) : x ∉ (processLoop links seen).2 := by
  induction links generalizing seen with
  | nil => simp [processLoop]
  | cons l ls ih =>
    by_cases h : l.statusId ∈ seen
    · simpa [processLoop, h] using ih seen hx
    · simp only [processLoop, h, ite_false, List.mem_cons]
      push_neg
      refine ⟨fun hxl => h (hxl ▸ hx), ?_⟩
      exact ih (seen ++ [l.statusId]) (List.mem_append_left _ hx)

theorem processLoop_emitted_mem_seen (links : List Link) (seen : List Nat) {x : Nat}
    (hx : x ∈ (processLoop links seen).2) : x ∈ (processLoop links seen).1 := by
  induction links generalizing seen with
  | nil => simp [processLoop] at hx
  | cons l ls ih =>
    by_cases h : l.statusId ∈ seen
    · simp only [processLoop, h, ite_true] at hx ⊢
      exact ih seen hx
    · simp only [processLoop, h, ite_false, List.mem_cons] at hx ⊢
      rcases hx with rfl | hx
      · exact processLoop_seen_grows ls _ (by simp)
      · exact ih _ hx

theorem processLoop_emitted_fresh (links : List Link) (seen : List Nat) {x : Nat}
    (hx : x ∈ (processLoop links seen).2) : x ∉ seen :=
  fun hmem => processLoop_not_emitted links seen hmem hx

theorem processLoop_emitted_nodup (links : List Link) (seen : List Nat) :
    (processLoop links seen).2.Nodup := by
  induction links generalizing seen with
  | nil => simp [processLoop]
  | cons l ls ih =>
    by_cases h : l.statusId ∈ seen
    · simpa [processLoop, h] using ih seen
    · simp only [processLoop, h, ite_false, List.nodup_cons]
      refine ⟨?_, ih _⟩
      exact fun hmem =>
        processLoop_not_emitted ls (seen ++ [l.statusId]) (by simp) hmem

theorem processLoop_emitted_sub (links : List Link) (seen : List Nat) {x : Nat}
    (hx : x ∈ (processLoop links seen).2) : x ∈ links.map Link.statusId := by
  induction links generalizing seen with
  | nil => simp [processLoop] at hx
  | cons l ls ih =>
    by_cases h : l.statusId ∈ seen
    · simp only [processLoop, h, ite_true] at hx
      exact List.mem_cons_of_mem _ (ih seen hx)
    · simp only [processLoop, h, ite_false, List.mem_cons] at hx
      rcases hx with rfl | hx
      · simp
      · exact List.mem_cons_of_mem _ (ih _ hx)

theorem processLoop_covers (links : List Link) (seen : List Nat) {x : Nat}
    (hx : x ∈ links.map Link.statusId) (hfresh : x ∉ seen) :
    x ∈ (processLoop links seen).2 := by
  induction links generalizing seen with
  | nil => simp at hx
  | cons l ls ih =>
    simp only [List.map_cons, List.mem_cons] at hx
    by_cases h : l.statusId ∈ seen
    · simp only [processLoop, h, ite_true]
      rcases hx with rfl | hx
      · exact absurd h hfresh
      · exact ih seen hx hfresh
    · simp only [processLoop, h, ite_false, List.mem_cons]
      rcases hx with rfl | hx
      · exact Or.inl rfl
      · by_cases hxl : x = l.statusId
        · exact Or.inl hxl
        · refine Or.inr (ih _ hx ?_)
          simp only [List.mem_append, List.mem_singleton]
          push_neg
          exact ⟨hfresh, hxl⟩

theorem processLoop_fresh_append (links : List Link) (seen : List Nat)
    (hfresh : ∀ l ∈ links, l.statusId ∉ seen)
    (hnd : (links.map Link.statusId).Nodup) :
    processLoop links seen = (seen ++ links.map Link.statusId, links.map Link.statusId) := by
  induction links generalizing seen with
  | nil => simp [processLoop]
  | cons l ls ih =>
    have hl : l.statusId ∉ seen := hfresh l (by simp)
    simp only [List.map_cons, List.nodup_cons] at hnd
    have hrest : ∀ l' ∈ ls, l'.statusId ∉ seen ++ [l.statusId] := by
      intro l' hl'
      simp only [List.mem_append, List.mem_singleton]
      push_neg
      refine ⟨hfresh l' (List.mem_cons_of_mem _ hl'), ?_⟩
      intro he
      exact hnd.1 (he ▸ List.mem_map_of_mem Link.statusId hl')
    simp only [processLoop, hl, ite_false, ih (seen ++ [l.statusId]) hrest hnd.2]
    simp

/-! ## Account Assigner / Dispatcher (`AccountAssigner`, src/unnamed/part_005) -/

/-- Per-account record stored in `this.activeAccounts` (lines 36-45).
`lastUsed` is the ISO timestamp modelled as epoch milliseconds, `none` for
the initial `null`.  `workload` is modelled as an integer so that the
non-negativity claimed of it is a statement, not a typing artifact.
The `auth` session handle and the mirrored `stats.accountStats` entry carry
no information used by any claim and are omitted. -/
structure Account where
  status : String
  lastUsed : Option Nat
  tasksAssigned : Nat
  repliesSent : Nat
  errors : Nat
  workload : Int
deriving DecidableEq, Repr

/-- The fresh record created for an account whose session was established
(lines 36-45). -/
def freshAccount : Account :=
  { status := "active", lastUsed := none, tasksAssigned := 0,
    repliesSent := 0, errors := 0, workload := 0 }

/-- One queued task (lines 81-86): the tweet is identified by its id, the
`createdAt` timestamp is irrelevant to every claim and omitted. -/
structure Task where
  tweetId : Nat
  accountId : String
  retryCount : Nat
deriving DecidableEq, Repr

/-- Events emitted by the assigner.  `taskRequeued` marks the
`this.taskQueue.push(task)` of line 246 (the retry re-enqueue), so that the
number of reassignments of a run can be observed. -/
inductive AEvent where
  | replySuccess (accountId : String) (tweetId : Nat)
  | taskFailed (t : Task) (error : String)
  | taskRequeued (t : Task)
  | accountError (accountId : String) (errors : Nat)
deriving DecidableEq, Repr

/-- The slice of `this.settings` the assigner reads:
`settings.monitoring?.retry_attempts` (line 236). -/
structure Settings where
  retryAttempts : Option Nat
deriving DecidableEq, Repr

/-- JavaScript `x || d` on an optional number: `0` is falsy, so both a
missing value and an explicit `0` yield the default. -/
def orDefault (o : Option Nat) (d : Nat) : Nat :=
  match o with
  | none => d
  | some 0 => d
  | some n => n

/-- Mutable state of one `AccountAssigner`: the account map in insertion
order (a JS `Map` iterates in insertion order), the FIFO task queue, and the
global counters of `this.stats`.  The mirrored `stats.accountStats` map
duplicates per-account fields and is omitted. -/
structure AssignerState where
  settings : Settings
  accounts : List (String × Account)
  taskQueue : List Task
  totalAssignments : Nat
  totalRepliesSent : Nat
  totalErrors : Nat
deriving DecidableEq, Repr

/-- Look an account up by id (`this.activeAccounts.get(id)`). -/
def findAccount (id : String) (accs : List (String × Account)) : Option Account :=
  (accs.find? (fun p => p.1 == id)).map (fun p => p.2)

/-- In-place mutation of one account record (`account.field = ...` on the
object held in the map). -/
def updateAccount (id : String) (f : Account → Account) :
    List (String × Account) → List (String × Account)
  | [] => []
  | (i, a) :: rest =>
    if i = id then (i, f a) :: rest else (i, a) :: updateAccount id f rest

/-- Key used by the comparator of lines 126-128:
`account.lastUsed ? new Date(account.lastUsed).getTime() : 0`. -/
def lastUsedKey (a : Account) : Nat :=
  match a.lastUsed with
  | none => 0
  | some t => t

/-- The comparator passed to `availableAccounts.sort` (lines 119-129):
workload difference first, then last-used-time difference. -/
def accountCmp (x y : String × Account) : Int :=
  if x.2.workload ≠ y.2.workload then x.2.workload - y.2.workload
  else (lastUsedKey x.2 : Int) - (lastUsedKey y.2 : Int)

/-- Boolean order corresponding to `accountCmp`: `x` may be placed before
`y` exactly when the comparator does not require the opposite order. -/
def accountLe (x y : String × Account) : Bool :=
  accountCmp x y ≤ 0

/-- The same order as a decidable relation.  A JS `Array.prototype.sort` is
a stable sort by the comparator; `List.insertionSort` with this relation is
stable and sorts by the same total preorder, so it computes the identical
permutation. -/
def accountBefore (x y : String × Account) : Prop :=
  accountLe x y = true

instance : DecidableRel accountBefore := fun x y =>
  instDecidableEqBool (accountLe x y) true

/-- `AccountAssigner.selectBestAccount` (lines 109-132): filter the map to
`status === "active"`, stable-sort by the load-balancing comparator, return
the first entry (or `null` when no account is active). -/
def selectBestAccount (accs : List (String × Account)) :
    Option (String × Account) :=
  let available := accs.filter (fun p => p.2.status == "active")
  (available.insertionSort accountBefore).head?

/-- `AccountAssigner.decreaseWorkload` (lines 265-270): decrement only when
the account exists and its workload is strictly positive. -/
def decreaseWorkload (id : String) (s : AssignerState) : AssignerState :=
  let f := fun (a : Account) =>
    if a.workload > 0 then { a with workload := a.workload - 1 } else a
  { s with accounts := updateAccount id f s.accounts }

/-- `AccountAssigner.handleTaskError` (lines 222-260), as a function from
the failed task, the error message and the state to the new state and the
emitted events.  Faithful points: the retry check is `task.retryCount <
maxRetries` after the increment of line 235; the reselection of line 242
uses `selectBestAccount` over all accounts (no exclusion of the failed
account) and the task is re-enqueued only when the selected id differs
from the failed id; the error-threshold check of lines 254-259 reads the
account object fetched for the original `accountId` after its error
increment. -/
def maxRetriesOf (s : AssignerState) : Nat :=
  orDefault s.settings.retryAttempts 3

/-- Lines 226-232 of `handleTaskError`: bump the failed account's error
counter, release its workload slot, bump the global error counter. -/
def errorBookkeeping (origId : String) (s : AssignerState) : AssignerState :=
  let s1 :=
    match findAccount origId s.accounts with
    | some _ =>
      decreaseWorkload origId
        { s with accounts :=
            updateAccount origId (fun a => { a with errors := a.errors + 1 }) s.accounts }
    | none => s
  { s1 with totalErrors := s1.totalErrors + 1 }

/-- Lines 234-251 of `handleTaskError`: the retry decision for the task with
its already-incremented `retryCount` (`task1`).  Below the bound, the
load-balancing rule is consulted over all accounts — the failed account is
not excluded — and the task is pushed to the back of the queue only when the
selected account differs from the failed one; otherwise the task is dropped
with no event.  At or above the bound, a single `taskFailed` is emitted. -/
def retryStep (task1 : Task) (origId : String) (errorMessage : String)
    (s2 : AssignerState) : AssignerState × List AEvent :=
  if task1.retryCount < maxRetriesOf s2 then
    match selectBestAccount s2.accounts with
    | some best =>
      if best.1 ≠ origId then
        let task2 : Task := { task1 with accountId := best.1 }
        ({ s2 with
            accounts :=
              updateAccount best.1 (fun a => { a with workload := a.workload + 1 })
                s2.accounts,
            taskQueue := s2.taskQueue ++ [task2] },
         [AEvent.taskRequeued task2])
      else (s2, [])
    | none => (s2, [])
  else (s2, [AEvent.taskFailed task1 errorMessage])

/-- Lines 253-259 of `handleTaskError`: demote the failed account to
`"error"` when its (already incremented) error counter has reached 5. -/
def demoteStep (origId : String) (r : AssignerState × List AEvent) :
    AssignerState × List AEvent :=
  match findAccount origId r.1.accounts with
  | some a =>
    if a.errors ≥ 5 then
      ({ r.1 with
          accounts := updateAccount origId (fun b => { b with status := "error" }) r.1.accounts },
       r.2 ++ [AEvent.accountError origId a.errors])
    else r
  | none => r

/-- `AccountAssigner.handleTaskError` (lines 222-260): bookkeeping, then the
retry decision, then the demotion check (the JS code reads the account
object it fetched for the original `accountId` after the error increment;
a reassignment never touches that account since it requires a different
id). -/
def handleTaskError (task : Task) (errorMessage : String) (s : AssignerState) :
    AssignerState × List AEvent :=
  demoteStep task.accountId
    (retryStep { task with retryCount := task.retryCount + 1 } task.accountId
      errorMessage (errorBookkeeping task.accountId s))

/-- Outcome of the external calls made while processing one task
(`getTweetDetails`, `shouldProcessTweet`, `aiClient.generateReply`,
`auth.postTweet`), supplied as an oracle:
* `fetchThrows`: `getTweetDetails` (line 171) throws — the `catch` of
  lines 213-216 runs `handleTaskError` and nothing else;
* `notEligible`: `shouldProcessTweet` returns `false` (line 174) —
  `decreaseWorkload` then early return, `lastUsed` untouched;
* `aiFailure`: `aiResponse.success` is `false` (line 205) —
  `handleTaskError` runs, then lines 210-212 still update `lastUsed` and
  call `decreaseWorkload` a second time;
* `aiOkPostOk`: reply generated and posted — counters bump, a
  `replySuccess` event, then `lastUsed` update and `decreaseWorkload`;
* `aiOkPostNull`: `postTweet` resolves falsy (line 191) — no counters, no
  event, then `lastUsed` update and `decreaseWorkload`;
* `postThrows`: `postTweet` (line 189) throws — caught at line 213,
  `handleTaskError` only (lines 210-212 are skipped by the exception). -/
inductive TaskOutcome where
  | fetchThrows (msg : String)
  | notEligible
  | aiFailure (msg : String)
  | aiOkPostOk
  | aiOkPostNull
  | postThrows (msg : String)
deriving DecidableEq, Repr

/-- Lines 210-212 of `processTask`: set the account's `lastUsed` to the
current time and release one workload slot. -/
def touchAccount (id : String) (now : Nat) (st : AssignerState) : AssignerState :=
  let f := fun (a : Account) => { a with lastUsed := some now }
  decreaseWorkload id { st with accounts := updateAccount id f st.accounts }

/-- `AccountAssigner.processTask` (lines 158-217) on one task already taken
off the queue, with the external outcome and the current time (for
`account.lastUsed = new Date().toISOString()`, line 211) as oracle inputs. -/
def processTask (task : Task) (outcome : TaskOutcome) (now : Nat)
    (s : AssignerState) : AssignerState × List AEvent :=
  match findAccount task.accountId s.accounts with
  | none => (s, [])
  | some acc =>
    if acc.status ≠ "active" then (s, [])
    else
      match outcome with
      | .fetchThrows msg => handleTaskError task msg s
      | .postThrows msg => handleTaskError task msg s
      | .notEligible => (decreaseWorkload task.accountId s, [])
      | .aiFailure msg =>
        let r := handleTaskError task msg s
        (touchAccount task.accountId now r.1, r.2)
      | .aiOkPostOk =>
        let bump := fun (a : Account) => { a with repliesSent := a.repliesSent + 1 }
        let s1 :=
          { s with accounts := updateAccount task.accountId bump s.accounts,
                   totalRepliesSent := s.totalRepliesSent + 1 }
        (touchAccount task.accountId now s1, [AEvent.replySuccess task.accountId task.tweetId])
      | .aiOkPostNull => (touchAccount task.accountId now s, [])

/-- The body of the `for (const tweet of tweets)` loop of
`AccountAssigner.assignTweets` (lines 75-100): select the best account; when
one exists, enqueue a fresh task for it and bump its counters, otherwise
drop the tweet with a warning. -/
def assignOne (tweetId : Nat) (s : AssignerState) : AssignerState :=
  match selectBestAccount s.accounts with
  | none => s
  | some best =>
    let bump := fun (a : Account) =>
      { a with tasksAssigned := a.tasksAssigned + 1, workload := a.workload + 1 }
    { s with
        accounts := updateAccount best.1 bump s.accounts,
        taskQueue := s.taskQueue ++ [{ tweetId := tweetId, accountId := best.1, retryCount := 0 }],
        totalAssignments := s.totalAssignments + 1 }

/-- `AccountAssigner.assignTweets` (lines 72-104) over a batch of tweet ids
(queue draining is modelled separately as `Op.processNext` steps). -/
def assignTweets (tweets : List Nat) (s : AssignerState) : AssignerState :=
  tweets.foldl (fun st t => assignOne t st) s

/-- `AccountAssigner.resetStats` (lines 342-361): zero the global counters
and each account's `tasksAssigned`, `repliesSent` and `errors`; the
account's `status` is copied, not changed. -/
def resetStats (s : AssignerState) : AssignerState :=
  { s with
      totalAssignments := 0, totalRepliesSent := 0, totalErrors := 0,
      accounts := s.accounts.map (fun p =>
        (p.1, { p.2 with tasksAssigned := 0, repliesSent := 0, errors := 0 })) }

/-- `AccountAssigner.cleanup` (lines 321-337): close every session (an
external effect), empty the account map and the queue. -/
def cleanup (s : AssignerState) : AssignerState :=
  { s with accounts := [], taskQueue := [] }

/-- `AccountAssigner.initialize` (lines 25-67): each configured account is
given by its id and whether its session was established (`auth.initialize()`
resolved `true`); only successful ones enter `activeAccounts`, each with the
fresh record of lines 36-45.  The JS version inserts in completion order of
the concurrent inits; insertion order carries no claim-relevant data, so
configuration order is used.  The function never rejects on zero active
accounts — it only emits `accountsInitialized` with the count. -/
def initializeAssigner (configs : List (String × Bool)) (settings : Settings) :
    AssignerState :=
  { settings := settings,
    accounts := (configs.filter (fun c => c.2)).map (fun c => (c.1, freshAccount)),
    taskQueue := [],
    totalAssignments := 0, totalRepliesSent := 0, totalErrors := 0 }

/-- `TwitterMonitorSystem.initializeAccountAssigner`
(src/src/monitor/TwitterMonitorSystem.js, lines 112-125): filter configs to
`enabled`, throw `没有可用的评论账号` when none is enabled, otherwise build
the assigner and run its initialization.  A config is `(id, enabled,
sessionOk)`. -/
def initializeAccountAssigner (configs : List (String × Bool × Bool))
    (settings : Settings) : Except String AssignerState :=
  let commentAccounts := configs.filter (fun c => c.2.1)
  if commentAccounts.isEmpty then Except.error "没有可用的评论账号"
  else Except.ok (initializeAssigner (commentAccounts.map (fun c => (c.1, c.2.2))) settings)

/-- One externally triggered operation on a running assigner:
a batch arriving at `assignTweets`, one iteration of the
`processTaskQueue` drain loop (lines 144-150: shift the head, process it),
`resetStats`, or `cleanup`. -/
inductive Op where
  | assign (tweets : List Nat)
  | processNext (outcome : TaskOutcome) (now : Nat)
  | reset
  | clean
deriving DecidableEq, Repr

/-- Apply one operation to the assigner state. -/
def applyOp : Op → AssignerState → AssignerState × List AEvent
  | .assign ts, s => (assignTweets ts s, [])
  | .processNext outcome now, s =>
    match s.taskQueue with
    | [] => (s, [])
    | t :: rest => processTask t outcome now { s with taskQueue := rest }
  | .reset, s => (resetStats s, [])
  | .clean, s => (cleanup s, [])

/-- Number of tasks of the queue assigned to a given account — the
outstanding, not yet terminated work of that account. -/
def queuedFor (id : String) (s : AssignerState) : Nat :=
  (s.taskQueue.filter (fun t => t.accountId == id)).length

/-! ## Listener Aggregator (`MultiGroupListener`, src/unnamed/part_006) -/

/-- Configuration of one group (the fields `removeGroup`, `restartGroup` and
`addGroup` read). -/
structure GroupConfig where
  id : String
  enabled : Bool
  priority : Option Nat
deriving DecidableEq, Repr

/-- Registry entry for one running group listener (`this.groupListeners`);
the listener object itself is external, only its identity matters here. -/
structure GroupData where
  config : GroupConfig
  status : String
deriving DecidableEq, Repr

/-- Per-group statistics entry of `this.stats.groupStats`. -/
structure GroupStat where
  tweetsFound : Nat
  errors : Nat
  status : String
deriving DecidableEq, Repr

/-- State of the `MultiGroupListener`: the config list, the listener
registry (a JS `Map`, insertion order), the per-group stats map, and the
two counters `removeGroup` recomputes. -/
structure MGLState where
  groupConfigs : List GroupConfig
  groupListeners : List (String × GroupData)
  groupStats : List (String × GroupStat)
  totalGroups : Nat
  activeGroups : Nat
deriving DecidableEq, Repr

/-- Map update by key for the stats association list. -/
def setStat (id : String) (st : GroupStat) :
    List (String × GroupStat) → List (String × GroupStat)
  | [] => [(id, st)]
  | (i, a) :: rest =>
    if i = id then (i, st) :: rest else (i, a) :: setStat id st rest

/-- Map update by key for the registry. -/
def setListener (id : String) (d : GroupData) :
    List (String × GroupData) → List (String × GroupData)
  | [] => [(id, d)]
  | (i, a) :: rest =>
    if i = id then (i, d) :: rest else (i, a) :: setListener id d rest

/-- `MultiGroupListener.initializeGroupListener` (lines 72-123), with the
success of `groupListener.start()` as an oracle: on success the registry and
stats gain an `active` entry; on failure only a `failed` stats entry is
recorded (every error is caught inside, the function never throws). -/
def initializeGroupListener (cfg : GroupConfig) (startOk : Bool) (s : MGLState) :
    MGLState :=
  if startOk then
    { s with
        groupListeners := setListener cfg.id { config := cfg, status := "active" } s.groupListeners,
        groupStats := setStat cfg.id { tweetsFound := 0, errors := 0, status := "active" } s.groupStats }
  else
    { s with
        groupStats := setStat cfg.id { tweetsFound := 0, errors := 1, status := "failed" } s.groupStats }

/-- `MultiGroupListener.restartGroup` (lines 245-267): throws
`群组监听器 <id> 不存在` when the id is not in the registry; otherwise stops
the old listener and re-runs `initializeGroupListener` (whose own failure is
swallowed, so a restart of a known id always succeeds). -/
def restartGroup (groupId : String) (startOk : Bool) (s : MGLState) :
    Except String MGLState :=
  match s.groupListeners.find? (fun p => p.1 == groupId) with
  | none => Except.error ("群组监听器 " ++ groupId ++ " 不存在")
  | some p => Except.ok (initializeGroupListener p.2.config startOk s)

/-- `MultiGroupListener.removeGroup` (lines 300-325): when the id is in the
registry its listener is stopped and the entry deleted; in every case —
known or unknown id — the config list is filtered, the stats entry deleted,
the counters recomputed and a `groupRemoved` event emitted.  `stop()`
swallows its own errors (GroupMessageListener.js lines 99-102), so the
function never throws. -/
def removeGroup (groupId : String) (s : MGLState) : Except String MGLState :=
  let s1 :=
    if (s.groupListeners.find? (fun p => p.1 == groupId)).isSome then
      { s with groupListeners := s.groupListeners.filter (fun p => p.1 != groupId) }
    else s
  let configs := s1.groupConfigs.filter (fun c => c.id != groupId)
  Except.ok
    { s1 with
        groupConfigs := configs,
        groupStats := s1.groupStats.filter (fun p => p.1 != groupId),
        totalGroups := configs.length,
        activeGroups := s1.groupListeners.length }

/-! ## Helper lemmas: `findAccount` and `updateAccount` -/

theorem findAccount_updateAccount_self (id : String) (f : Account → Account)
    (accs : List (String × Account)) :
    findAccount id (updateAccount id f accs) = (findAccount id accs).map f := by
  induction accs with
  | nil => simp [findAccount, updateAccount]
  | cons p rest ih =>
    obtain ⟨i, a⟩ := p
    by_cases h : i = id
    · subst h
      simp [findAccount, updateAccount, List.find?]
    · simp only [updateAccount, if_neg h]
      simp only [findAccount, List.find?] at ih ⊢
      have hb : (i == id) = false := by simpa using h
      simp [hb, ih]

theorem findAccount_updateAccount_ne (id id' : String) (f : Account → Account)
    (accs : List (String × Account)) (h : id ≠ id') :
    findAccount id (updateAccount id' f accs) = findAccount id accs := by
  induction accs with
  | nil => simp [findAccount, updateAccount]
  | cons p rest ih =>
    obtain ⟨i, a⟩ := p
    by_cases hi : i = id'
    · subst hi
      have hb : (i == id) = false := by simpa using fun he => h he.symm
      simp [findAccount, updateAccount, List.find?, hb]
    · simp only [updateAccount, if_neg hi]
      simp only [findAccount, List.find?] at ih ⊢
      by_cases hid : i = id
      · subst hid
        simp
      · have hb : (i == id) = false := by simpa using hid
        simp [hb, ih]

theorem mem_updateAccount (id : String) (f : Account → Account)
    (accs : List (String × Account)) :
    ∀ q ∈ updateAccount id f accs, q ∈ accs ∨ ∃ a, (q.1, a) ∈ accs ∧ q.2 = f a := by
  induction accs with
  | nil => intro q hq; simp [updateAccount] at hq
  | cons p rest ih =>
    intro q hq
    obtain ⟨i, a⟩ := p
    by_cases h : i = id
    · simp only [updateAccount, if_pos h, List.mem_cons] at hq
      rcases hq with hq | hq
      · subst hq
        exact Or.inr ⟨a, by simp⟩
      · exact Or.inl (List.mem_cons_of_mem _ hq)
    · simp only [updateAccount, if_neg h, List.mem_cons] at hq
      rcases hq with hq | hq
      · subst hq
        exact Or.inl (by simp)
      · rcases ih q hq with h' | ⟨b, hb, he⟩
        · exact Or.inl (List.mem_cons_of_mem _ h')
        · exact Or.inr ⟨b, List.mem_cons_of_mem _ hb, he⟩

theorem findAccount_decreaseWorkload_self (id : String) (s : AssignerState) :
    findAccount id (decreaseWorkload id s).accounts =
      (findAccount id s.accounts).map
        (fun a => if a.workload > 0 then { a with workload := a.workload - 1 } else a) := by
  simp [decreaseWorkload, findAccount_updateAccount_self]

theorem findAccount_decreaseWorkload_ne (id id' : String) (s : AssignerState)
    (h : id ≠ id') :
    findAccount id (decreaseWorkload id' s).accounts = findAccount id s.accounts := by
  simp [decreaseWorkload, findAccount_updateAccount_ne _ _ _ _ h]

/-! ## C7: removal / restart of an unknown source -/

/-- Concrete aggregator state for the C7 counterexample: one disabled group
config `g1` that is known to the config list and the stats map but absent
from the listener registry. -/
def mgl0 : MGLState :=
  { groupConfigs := [{ id := "g1", enabled := false, priority := none }],
    groupListeners := [],
    groupStats := [("g1", { tweetsFound := 0, errors := 0, status := "failed" })],
    totalGroups := 1, activeGroups := 0 }

/-- C7 counterexample: `removeGroup` on an id that is not in the listener
registry does NOT fail with a NotFoundError — it succeeds, and it does not
leave the aggregator state unchanged (the config list, the stats map and
the counters all change).  Only `restartGroup` rejects an unknown id. -/
theorem removeGroup_unknown_id_succeeds_and_mutates :
    "g1" ∉ mgl0.groupListeners.map Prod.fst ∧
    removeGroup "g1" mgl0 =
      Except.ok { groupConfigs := [], groupListeners := [], groupStats := [],
                  totalGroups := 0, activeGroups := 0 } ∧
    mgl0.groupConfigs ≠ [] := by
  refine ⟨by decide, by rfl, by decide⟩

/-- C7 as amended: `restartGroup` on an id absent from the registry fails
synchronously with the not-found error and (being a pure rejection) leaves
every part of the aggregator state unchanged; `removeGroup` on such an id
does not fail — it succeeds, leaves the registry as it was, and removes any
config-list and stats entries matching the id. -/
theorem restart_unknown_fails_remove_unknown_succeeds (s : MGLState) (id : String)
    (h : s.groupListeners.find? (fun p => p.1 == id) = none) :
    (∀ startOk, restartGroup id startOk s =
        Except.error ("群组监听器 " ++ id ++ " 不存在")) ∧
    removeGroup id s =
      Except.ok
        { groupConfigs := s.groupConfigs.filter (fun c => c.id != id),
          groupListeners := s.groupListeners,
          groupStats := s.groupStats.filter (fun p => p.1 != id),
          totalGroups := (s.groupConfigs.filter (fun c => c.id != id)).length,
          activeGroups := s.groupListeners.length } := by
  constructor
  · intro startOk
    simp [restartGroup, h]
  · have hnone : (s.groupListeners.find? (fun p => p.1 == id)).isSome = false := by
      simp [h]
    simp [removeGroup, hnone]

/-- Witness for the amended C7 theorem at a concrete state. -/
theorem restart_unknown_fails_remove_unknown_succeeds_witness :
    restartGroup "zz" true mgl0 = Except.error ("群组监听器 " ++ "zz" ++ " 不存在") ∧
    removeGroup "zz" mgl0 =
      Except.ok
        { groupConfigs := mgl0.groupConfigs.filter (fun c => c.id != "zz"),
          groupListeners := mgl0.groupListeners,
          groupStats := mgl0.groupStats.filter (fun p => p.1 != "zz"),
          totalGroups := (mgl0.groupConfigs.filter (fun c => c.id != "zz")).length,
          activeGroups := mgl0.groupListeners.length } :=
  ⟨(restart_unknown_fails_remove_unknown_succeeds mgl0 "zz" (by decide)).1 true,
   (restart_unknown_fails_remove_unknown_succeeds mgl0 "zz" (by decide)).2⟩

/-! ## C8: dispatcher initialization with zero active workers -/

/-- Settings used by concrete dispatcher examples (no
`monitoring.retry_attempts` configured, so the default 3 applies). -/
def settings0 : Settings := { retryAttempts := none }

/-- C8 counterexample: one enabled worker whose session establishment fails.
Zero workers end up active, yet `initializeAccountAssigner` completes
without any hard error — it returns the state with an empty active pool.
The hard error is raised only when zero *enabled workers are configured*,
before any session is attempted. -/
theorem zero_active_workers_no_error :
    initializeAccountAssigner [("a", true, false)] settings0 =
      Except.ok
        { settings := settings0, accounts := [], taskQueue := [],
          totalAssignments := 0, totalRepliesSent := 0, totalErrors := 0 } := by
  rfl

theorem initPool_eq (configs : List (String × Bool × Bool)) :
    (((configs.filter (fun c => c.2.1)).map (fun c => (c.1, c.2.2))).filter
        (fun c => c.2)).map (fun c => (c.1, freshAccount)) =
      (configs.filter (fun c => c.2.1 && c.2.2)).map (fun c => (c.1, freshAccount)) := by
  induction configs with
  | nil => rfl
  | cons c cs ih =>
    obtain ⟨i, en, ok⟩ := c
    cases en <;> cases ok <;> simp_all

/-- C8 as amended: initialization signals a hard error if and only if the
configuration contains no enabled worker at all; session failures are never
fatal — the resulting active pool is exactly the enabled workers whose
session was established, so one worker's failure is isolated from its
siblings and an all-workers-fail run yields an empty pool with no error. -/
theorem initializeAccountAssigner_spec (configs : List (String × Bool × Bool))
    (settings : Settings) :
    ((∃ e, initializeAccountAssigner configs settings = Except.error e) ↔
      configs.filter (fun c => c.2.1) = []) ∧
    (∀ s', initializeAccountAssigner configs settings = Except.ok s' →
      s'.accounts =
        (configs.filter (fun c => c.2.1 && c.2.2)).map (fun c => (c.1, freshAccount))) := by
  constructor
  · constructor
    · rintro ⟨e, he⟩
      by_cases h : (configs.filter (fun c => c.2.1)).isEmpty
      · exact List.isEmpty_iff.mp h
      · simp [initializeAccountAssigner, h] at he
    · intro h
      refine ⟨"没有可用的评论账号", ?_⟩
      simp [initializeAccountAssigner, h]
  · intro s' hs'
    by_cases h : (configs.filter (fun c => c.2.1)).isEmpty
    · simp [initializeAccountAssigner, h] at hs'
    · simp only [initializeAccountAssigner] at hs'
      rw [if_neg (by simpa using h)] at hs'
      cases hs'
      simpa only [initializeAssigner] using initPool_eq configs

/-- Witness for the amended C8 theorem: two enabled workers, one session
fails — the pool holds exactly the surviving worker. -/
theorem initializeAccountAssigner_spec_witness :
    ([("a", true, false), ("b", true, true)].filter (fun c => c.2.1 && c.2.2)).map
        (fun c => (c.1, freshAccount)) = [("b", freshAccount)] := by
  have h :=
    (initializeAccountAssigner_spec [("a", true, false), ("b", true, true)] settings0).2
      { settings := settings0, accounts := [("b", freshAccount)], taskQueue := [],
        totalAssignments := 0, totalRepliesSent := 0, totalErrors := 0 } (by rfl)
  exact h.symm

/-! ## C3: the load-balancing selection rule -/

theorem accountLe_iff (x y : String × Account) :
    accountLe x y = true ↔
      (x.2.workload < y.2.workload ∨
        (x.2.workload = y.2.workload ∧ lastUsedKey x.2 ≤ lastUsedKey y.2)) := by
  have hdec : accountLe x y = true ↔ accountCmp x y ≤ 0 := by
    simp [accountLe]
  rw [hdec]
  unfold accountCmp
  by_cases h : x.2.workload = y.2.workload
  · rw [if_neg (by simpa using h)]
    constructor
    · intro hle
      exact Or.inr ⟨h, by omega⟩
    · rintro (hlt | ⟨-, hk⟩)
      · exact absurd h (by omega)
      · omega
  · rw [if_pos (by simpa using h)]
    constructor
    · intro hle
      exact Or.inl (by omega)
    · rintro (hlt | ⟨he, -⟩)
      · omega
      · exact absurd he h

theorem accountLe_total (x y : String × Account) :
    accountLe x y || accountLe y x := by
  by_cases h : accountLe x y = true
  · simp [h]
  · have hx := (not_iff_not.mpr (accountLe_iff x y)).mp h
    push_neg at hx
    have hyx : accountLe y x = true := by
      rw [accountLe_iff]
      rcases lt_trichotomy y.2.workload x.2.workload with hlt | heq | hgt
      · exact Or.inl hlt
      · refine Or.inr ⟨heq, ?_⟩
        have := hx.2 heq.symm
        omega
      · exact absurd hgt (not_lt.mpr hx.1)
    simp [hyx]

theorem accountLe_trans (x y z : String × Account) (hxy : accountLe x y)
    (hyz : accountLe y z) : accountLe x z := by
  rw [accountLe_iff] at hxy hyz ⊢
  rcases hxy with h1 | ⟨e1, k1⟩ <;> rcases hyz with h2 | ⟨e2, k2⟩
  · exact Or.inl (by omega)
  · exact Or.inl (by omega)
  · exact Or.inl (by omega)
  · exact Or.inr ⟨by omega, le_trans k1 k2⟩

instance : IsTotal (String × Account) accountBefore :=
  ⟨fun x y => by
    have := accountLe_total x y
    unfold accountBefore
    rcases Bool.or_eq_true_iff.mp this with h | h
    · exact Or.inl h
    · exact Or.inr h⟩

instance : IsTrans (String × Account) accountBefore :=
  ⟨fun x y z hxy hyz => accountLe_trans x y z hxy hyz⟩

/-- The account returned by `selectBestAccount` always has status
`"active"` (the filter of line 111 precedes the sort). -/
theorem selectBestAccount_active (accs : List (String × Account))
    (p : String × Account) (hp : selectBestAccount accs = some p) :
    p.2.status = "active" ∧ p ∈ accs := by
  unfold selectBestAccount at hp
  have hmem : p ∈ (accs.filter (fun q => q.2.status == "active")).insertionSort accountBefore :=
    List.mem_of_mem_head? hp
  rw [(List.perm_insertionSort accountBefore _).mem_iff] at hmem
  have := List.mem_filter.mp hmem
  exact ⟨by simpa using this.2, this.1⟩

/-- C3: whenever at least one account is active, `selectBestAccount` returns
an active account whose workload is minimal among active accounts; among
active accounts of equal (minimal) workload its last-used key is minimal,
and — provided every recorded `lastUsed` timestamp is positive, as a real
epoch timestamp is — a never-used account is preferred: if any active
account of that workload is never-used, the selected one is never-used. -/
theorem selectBestAccount_min (accs : List (String × Account))
    (hact : ∃ p ∈ accs, p.2.status = "active")
    (hpos : ∀ p ∈ accs, ∀ t, p.2.lastUsed = some t → 0 < t) :
    ∃ best, selectBestAccount accs = some best ∧ best ∈ accs ∧
      best.2.status = "active" ∧
      (∀ q ∈ accs, q.2.status = "active" →
        best.2.workload ≤ q.2.workload ∧
        (best.2.workload = q.2.workload → lastUsedKey best.2 ≤ lastUsedKey q.2) ∧
        (best.2.workload = q.2.workload → q.2.lastUsed = none →
          best.2.lastUsed = none)) := by
  classical
  obtain ⟨p0, hp0, hst0⟩ := hact
  set avail := accs.filter (fun q => q.2.status == "active") with havail
  have hp0' : p0 ∈ avail := List.mem_filter.mpr ⟨hp0, by simpa using hst0⟩
  set sorted := avail.insertionSort accountBefore with hsorted
  have hmemiff : ∀ q, q ∈ sorted ↔ q ∈ avail := by
    intro q
    rw [hsorted, (List.perm_insertionSort accountBefore _).mem_iff]
  have hne : sorted ≠ [] := by
    intro h
    rw [h] at hmemiff
    simpa using (hmemiff p0).mpr hp0'
  obtain ⟨best, tl, hcons⟩ := List.exists_cons_of_ne_nil hne
  have hhead : selectBestAccount accs = some best := by
    have hdef : selectBestAccount accs = sorted.head? := rfl
    rw [hdef, hcons]
    rfl
  have hsortpw : sorted.Pairwise accountBefore := by
    rw [hsorted]
    exact List.sorted_insertionSort accountBefore avail
  have hle : ∀ q ∈ tl, accountLe best q := by
    rw [hcons] at hsortpw
    exact (List.pairwise_cons.mp hsortpw).1
  have hbestmem : best ∈ avail := (hmemiff best).mp (by rw [hcons]; simp)
  have hbestacc : best ∈ accs := (List.mem_filter.mp hbestmem).1
  have hbestst : best.2.status = "active" := by
    simpa using (List.mem_filter.mp hbestmem).2
  refine ⟨best, hhead, hbestacc, hbestst, ?_⟩
  intro q hq hqst
  have hq' : q ∈ sorted := (hmemiff q).mpr (List.mem_filter.mpr ⟨hq, by simpa using hqst⟩)
  have hbq : accountLe best q := by
    rw [hcons] at hq'
    rcases List.mem_cons.mp hq' with rfl | hmem
    · rw [accountLe_iff]
      exact Or.inr ⟨rfl, le_refl _⟩
    · exact hle q hmem
  rw [accountLe_iff] at hbq
  refine ⟨?_, ?_, ?_⟩
  · rcases hbq with h | ⟨h, -⟩ <;> omega
  · intro he
    rcases hbq with h | ⟨-, h⟩
    · omega
    · exact h
  · intro he hnone
    have hkq : lastUsedKey q.2 = 0 := by simp [lastUsedKey, hnone]
    have hkb : lastUsedKey best.2 = 0 := by
      rcases hbq with h | ⟨-, h⟩
      · omega
      · omega
    match hb : best.2.lastUsed with
    | none => rfl
    | some t =>
      have := hpos best hbestacc t hb
      simp [lastUsedKey, hb] at hkb
      omega

/-- The spec's concrete load-balancing example: active accounts with
outstanding loads `[0, 2, 1]`. -/
def c3a : Account :=
  { status := "active", lastUsed := some 500, tasksAssigned := 3,
    repliesSent := 1, errors := 0, workload := 0 }

def c3b : Account :=
  { status := "active", lastUsed := some 100, tasksAssigned := 5,
    repliesSent := 2, errors := 0, workload := 2 }

def c3c : Account :=
  { status := "active", lastUsed := some 200, tasksAssigned := 4,
    repliesSent := 1, errors := 0, workload := 1 }

def c3pool : List (String × Account) := [("a", c3a), ("b", c3b), ("c", c3c)]

/-- Witness for C3: on loads `[0, 2, 1]` the selection returns the load-0
account, and its workload is the minimum. -/
theorem selectBestAccount_min_witness :
    selectBestAccount c3pool = some ("a", c3a) ∧
    c3a.workload ≤ c3b.workload ∧ c3a.workload ≤ c3c.workload := by
  obtain ⟨best, hsel, hmem, hact, hmin⟩ := selectBestAccount_min c3pool (by decide) (by decide)
  have heq : best = ("a", c3a) := by
    have hsome : some best = some ("a", c3a) := by
      rw [← hsel]
      rfl
    exact Option.some.inj hsome
  subst heq
  exact ⟨hsel, (hmin ("b", c3b) (by decide) (by decide)).1,
    (hmin ("c", c3c) (by decide) (by decide)).1⟩

/-! ## Preservation machinery for C4 and C10 -/

/-- Once an account is observed with status `"error"`, the same id is still
present with status `"error"` after the step. -/
def errorSticky (accs accs' : List (String × Account)) : Prop :=
  ∀ id a, findAccount id accs = some a → a.status = "error" →
    ∃ a', findAccount id accs' = some a' ∧ a'.status = "error"

theorem errorSticky_refl (accs : List (String × Account)) : errorSticky accs accs :=
  fun _ a h he => ⟨a, h, he⟩

theorem errorSticky_trans {a b c : List (String × Account)}
    (h1 : errorSticky a b) (h2 : errorSticky b c) : errorSticky a c := by
  intro id x hx hex
  obtain ⟨y, hy, hey⟩ := h1 id x hx hex
  exact h2 id y hy hey

theorem findAccount_map (id : String) (g : Account → Account)
    (accs : List (String × Account)) :
    findAccount id (accs.map (fun p => (p.1, g p.2))) = (findAccount id accs).map g := by
  induction accs with
  | nil => simp [findAccount]
  | cons p rest ih =>
    obtain ⟨i, a⟩ := p
    by_cases h : i = id
    · simp [findAccount, List.find?, h]
    · have hb : (i == id) = false := by simpa using h
      simp only [findAccount, List.map_cons, List.find?, hb] at ih ⊢
      exact ih

theorem errorSticky_update (id : String) (f : Account → Account)
    (hf : ∀ a, (f a).status = a.status ∨ (f a).status = "error")
    (accs : List (String × Account)) : errorSticky accs (updateAccount id f accs) := by
  intro i a h he
  by_cases hi : i = id
  · subst hi
    refine ⟨f a, ?_, ?_⟩
    · rw [findAccount_updateAccount_self, h]
      rfl
    · rcases hf a with hs | hs
      · rw [hs, he]
      · exact hs
  · exact ⟨a, by rw [findAccount_updateAccount_ne _ _ _ _ hi]; exact h, he⟩

theorem errorSticky_map (g : Account → Account)
    (hg : ∀ a, (g a).status = a.status)
    (accs : List (String × Account)) :
    errorSticky accs (accs.map (fun p => (p.1, g p.2))) := by
  intro i a h he
  refine ⟨g a, ?_, ?_⟩
  · rw [findAccount_map, h]
    rfl
  · rw [hg, he]

theorem errorSticky_decreaseWorkload (id : String) (s : AssignerState) :
    errorSticky s.accounts (decreaseWorkload id s).accounts := by
  apply errorSticky_update
  intro a
  by_cases h : a.workload > 0 <;> simp [h]

theorem errorSticky_errorBookkeeping (id : String) (s : AssignerState) :
    errorSticky s.accounts (errorBookkeeping id s).accounts := by
  unfold errorBookkeeping
  cases h : findAccount id s.accounts with
  | none => exact errorSticky_refl _
  | some a =>
    exact errorSticky_trans
      (errorSticky_update id (fun a => { a with errors := a.errors + 1 }) (by simp) s.accounts)
      (errorSticky_decreaseWorkload id
        { s with accounts :=
            updateAccount id (fun a => { a with errors := a.errors + 1 }) s.accounts })

theorem errorSticky_retryStep (task1 : Task) (origId errorMessage : String)
    (s2 : AssignerState) :
    errorSticky s2.accounts (retryStep task1 origId errorMessage s2).1.accounts := by
  unfold retryStep
  split
  all_goals try exact errorSticky_refl _
  split
  all_goals try exact errorSticky_refl _
  split
  all_goals try exact errorSticky_refl _
  exact errorSticky_update _ _ (by simp) _

theorem errorSticky_demoteStep (origId : String) (r : AssignerState × List AEvent) :
    errorSticky r.1.accounts (demoteStep origId r).1.accounts := by
  unfold demoteStep
  split
  all_goals try exact errorSticky_refl _
  split
  all_goals try exact errorSticky_refl _
  exact errorSticky_update _ _ (by simp) _

theorem errorSticky_handleTaskError (task : Task) (msg : String) (s : AssignerState) :
    errorSticky s.accounts (handleTaskError task msg s).1.accounts := by
  unfold handleTaskError
  exact errorSticky_trans (errorSticky_errorBookkeeping _ _)
    (errorSticky_trans (errorSticky_retryStep _ _ _ _) (errorSticky_demoteStep _ _))

theorem errorSticky_touchAccount (id : String) (now : Nat) (st : AssignerState) :
    errorSticky st.accounts (touchAccount id now st).accounts := by
  unfold touchAccount
  exact errorSticky_trans
    (errorSticky_update id (fun a => { a with lastUsed := some now }) (by simp) st.accounts)
    (errorSticky_decreaseWorkload id
      { st with accounts :=
          updateAccount id (fun a => { a with lastUsed := some now }) st.accounts })

theorem errorSticky_processTask (task : Task) (outcome : TaskOutcome) (now : Nat)
    (s : AssignerState) :
    errorSticky s.accounts (processTask task outcome now s).1.accounts := by
  unfold processTask
  split
  · exact errorSticky_refl _
  split
  · exact errorSticky_refl _
  split
  · exact errorSticky_handleTaskError _ _ _
  · exact errorSticky_handleTaskError _ _ _
  · exact errorSticky_decreaseWorkload _ _
  · exact errorSticky_trans (errorSticky_handleTaskError _ _ _)
      (errorSticky_touchAccount _ _ _)
  · dsimp only
    refine errorSticky_trans ?_ (errorSticky_touchAccount _ _ _)
    exact errorSticky_update task.accountId
      (fun a => { a with repliesSent := a.repliesSent + 1 }) (by simp) s.accounts
  · exact errorSticky_touchAccount _ _ _

theorem errorSticky_assignOne (tweetId : Nat) (s : AssignerState) :
    errorSticky s.accounts (assignOne tweetId s).accounts := by
  unfold assignOne
  cases h : selectBestAccount s.accounts with
  | none => exact errorSticky_refl _
  | some best => exact errorSticky_update best.1 _ (by simp) _

theorem errorSticky_assignTweets (tweets : List Nat) (s : AssignerState) :
    errorSticky s.accounts (assignTweets tweets s).accounts := by
  induction tweets generalizing s with
  | nil => exact errorSticky_refl _
  | cons t ts ih =>
    exact errorSticky_trans (errorSticky_assignOne t s) (ih (assignOne t s))

/-- An id observed with status `"error"` is, after any single dispatcher
operation, either gone from the pool (only `cleanup` does that) or still in
status `"error"` — no operation re-activates it. -/
theorem errorSticky_applyOp (op : Op) (s : AssignerState) (id : String)
    (a : Account) (h : findAccount id s.accounts = some a)
    (he : a.status = "error") (a' : Account)
    (h' : findAccount id (applyOp op s).1.accounts = some a') :
    a'.status = "error" := by
  cases op with
  | assign ts =>
    obtain ⟨b, hb, heb⟩ := errorSticky_assignTweets ts s id a h he
    rw [show (applyOp (Op.assign ts) s).1 = assignTweets ts s from rfl] at h'
    rw [hb] at h'
    cases h'
    exact heb
  | processNext outcome now =>
    cases hq : s.taskQueue with
    | nil =>
      simp only [applyOp, hq] at h'
      rw [h] at h'
      cases h'
      exact he
    | cons t rest =>
      simp only [applyOp, hq] at h'
      obtain ⟨b, hb, heb⟩ :=
        errorSticky_processTask t outcome now { s with taskQueue := rest } id a h he
      rw [hb] at h'
      cases h'
      exact heb
  | reset =>
    obtain ⟨b, hb, heb⟩ := errorSticky_map
      (fun c => { c with tasksAssigned := 0, repliesSent := 0, errors := 0 })
      (by simp) s.accounts id a h he
    have hacc : (applyOp Op.reset s).1.accounts =
        s.accounts.map
          (fun p => (p.1, { p.2 with tasksAssigned := 0, repliesSent := 0, errors := 0 })) := rfl
    rw [hacc, hb] at h'
    cases h'
    exact heb
  | clean =>
    simp [applyOp, cleanup, findAccount] at h'

/-- Workload non-negativity of every account of a pool. -/
def workNonneg (accs : List (String × Account)) : Prop :=
  ∀ p ∈ accs, 0 ≤ p.2.workload

theorem workNonneg_update (id : String) (f : Account → Account)
    (hf : ∀ a, 0 ≤ a.workload → 0 ≤ (f a).workload)
    (accs : List (String × Account)) (h : workNonneg accs) :
    workNonneg (updateAccount id f accs) := by
  intro q hq
  rcases mem_updateAccount id f accs q hq with hm | ⟨a, ha, he⟩
  · exact h q hm
  · rw [he]
    exact hf a (h (q.1, a) ha)

theorem workNonneg_map (g : Account → Account)
    (hg : ∀ a, 0 ≤ a.workload → 0 ≤ (g a).workload)
    (accs : List (String × Account)) (h : workNonneg accs) :
    workNonneg (accs.map (fun p => (p.1, g p.2))) := by
  intro q hq
  rw [List.mem_map] at hq
  obtain ⟨p, hp, rfl⟩ := hq
  exact hg p.2 (h p hp)

theorem workNonneg_decreaseWorkload (id : String) (s : AssignerState)
    (h : workNonneg s.accounts) : workNonneg (decreaseWorkload id s).accounts := by
  apply workNonneg_update _ _ _ _ h
  intro a ha
  by_cases hw : a.workload > 0 <;> simp [hw] <;> omega

theorem workNonneg_errorBookkeeping (id : String) (s : AssignerState)
    (h : workNonneg s.accounts) : workNonneg (errorBookkeeping id s).accounts := by
  unfold errorBookkeeping
  cases hf : findAccount id s.accounts with
  | none => simpa only [hf] using h
  | some a =>
    simp only [hf]
    exact workNonneg_decreaseWorkload id _
      (workNonneg_update id _ (by simp) _ h)

theorem workNonneg_retryStep (task1 : Task) (origId errorMessage : String)
    (s2 : AssignerState) (h : workNonneg s2.accounts) :
    workNonneg (retryStep task1 origId errorMessage s2).1.accounts := by
  unfold retryStep
  split
  all_goals try exact h
  split
  all_goals try exact h
  split
  all_goals try exact h
  apply workNonneg_update _ _ _ _ h
  intro a ha
  simpa using le_trans ha (by omega)

theorem workNonneg_demoteStep (origId : String) (r : AssignerState × List AEvent)
    (h : workNonneg r.1.accounts) : workNonneg (demoteStep origId r).1.accounts := by
  unfold demoteStep
  split
  all_goals try exact h
  split
  all_goals try exact h
  exact workNonneg_update _ _ (by simp) _ h

theorem workNonneg_handleTaskError (task : Task) (msg : String) (s : AssignerState)
    (h : workNonneg s.accounts) :
    workNonneg (handleTaskError task msg s).1.accounts := by
  unfold handleTaskError
  exact workNonneg_demoteStep _ _
    (workNonneg_retryStep _ _ _ _ (workNonneg_errorBookkeeping _ _ h))

theorem workNonneg_touchAccount (id : String) (now : Nat) (st : AssignerState)
    (h : workNonneg st.accounts) : workNonneg (touchAccount id now st).accounts := by
  unfold touchAccount
  exact workNonneg_decreaseWorkload _ _ (workNonneg_update _ _ (by simp) _ h)

theorem workNonneg_processTask (task : Task) (outcome : TaskOutcome) (now : Nat)
    (s : AssignerState) (h : workNonneg s.accounts) :
    workNonneg (processTask task outcome now s).1.accounts := by
  unfold processTask
  split
  · exact h
  split
  · exact h
  split
  · exact workNonneg_handleTaskError _ _ _ h
  · exact workNonneg_handleTaskError _ _ _ h
  · exact workNonneg_decreaseWorkload _ _ h
  · exact workNonneg_touchAccount _ _ _ (workNonneg_handleTaskError _ _ _ h)
  · exact workNonneg_touchAccount _ _ _
      (workNonneg_update task.accountId
        (fun a => { a with repliesSent := a.repliesSent + 1 }) (by simp) _ h)
  · exact workNonneg_touchAccount _ _ _ h

theorem workNonneg_assignOne (tweetId : Nat) (s : AssignerState)
    (h : workNonneg s.accounts) : workNonneg (assignOne tweetId s).accounts := by
  unfold assignOne
  cases hb : selectBestAccount s.accounts with
  | none => exact h
  | some best =>
    apply workNonneg_update _ _ _ _ h
    intro a ha
    simpa using le_trans ha (by omega)

theorem workNonneg_assignTweets (tweets : List Nat) (s : AssignerState)
    (h : workNonneg s.accounts) : workNonneg (assignTweets tweets s).accounts := by
  induction tweets generalizing s with
  | nil => exact h
  | cons t ts ih => exact ih (assignOne t s) (workNonneg_assignOne t s h)

/-! ## C4: demotion at the error threshold, exclusion, no re-activation -/

/-- Effect of the error bookkeeping on the failed account itself: error
counter incremented, one workload slot released (under the guard). -/
def afterBookkeeping (a : Account) : Account :=
  let a1 : Account := { a with errors := a.errors + 1 }
  if a1.workload > 0 then { a1 with workload := a1.workload - 1 } else a1

theorem findAccount_errorBookkeeping_self (id : String) (s : AssignerState)
    (a : Account) (h : findAccount id s.accounts = some a) :
    findAccount id (errorBookkeeping id s).accounts = some (afterBookkeeping a) := by
  unfold errorBookkeeping
  rw [h]
  show findAccount id
      (decreaseWorkload id
        { s with accounts :=
            updateAccount id (fun b => { b with errors := b.errors + 1 }) s.accounts }).accounts =
    some (afterBookkeeping a)
  rw [findAccount_decreaseWorkload_self]
  show ((findAccount id
      (updateAccount id (fun b => { b with errors := b.errors + 1 }) s.accounts)).map
        (fun b => if b.workload > 0 then { b with workload := b.workload - 1 } else b)) =
    some (afterBookkeeping a)
  rw [findAccount_updateAccount_self, h]
  rfl

theorem findAccount_retryStep_orig (task1 : Task) (origId msg : String)
    (s2 : AssignerState) :
    findAccount origId (retryStep task1 origId msg s2).1.accounts =
      findAccount origId s2.accounts := by
  unfold retryStep
  split
  · split
    · split
      · rename_i best hbest hne
        exact findAccount_updateAccount_ne _ _ _ _ (fun he => hne he.symm)
      · rfl
    · rfl
  · rfl

/-- C4: (i) a task-error handling that raises the failed account's error
counter to the threshold 5 flips its status to `"error"`; (ii) the selection
rule never returns an account whose status is not `"active"`, so a demoted
account is excluded even if it is the only one with workload 0; (iii) no
dispatcher operation moves an account observed in status `"error"` back to
any other status. -/
theorem error_demotion_and_exclusion :
    (∀ (task : Task) (msg : String) (s : AssignerState) (a : Account),
      findAccount task.accountId s.accounts = some a → 4 ≤ a.errors →
      ∀ a', findAccount task.accountId (handleTaskError task msg s).1.accounts = some a' →
        a'.status = "error") ∧
    (∀ (accs : List (String × Account)) (p : String × Account),
      selectBestAccount accs = some p → p.2.status = "active") ∧
    (∀ (op : Op) (s : AssignerState) (id : String) (a a' : Account),
      findAccount id s.accounts = some a → a.status = "error" →
      findAccount id (applyOp op s).1.accounts = some a' → a'.status = "error") := by
  refine ⟨?_, ?_, ?_⟩
  · intro task msg s a h herr a' h'
    unfold handleTaskError at h'
    have h2 := findAccount_errorBookkeeping_self task.accountId s a h
    have h3 : findAccount task.accountId
        (retryStep { task with retryCount := task.retryCount + 1 } task.accountId msg
          (errorBookkeeping task.accountId s)).1.accounts = some (afterBookkeeping a) := by
      rw [findAccount_retryStep_orig, h2]
    have ha2 : (afterBookkeeping a).errors = a.errors + 1 := by
      unfold afterBookkeeping
      dsimp only
      split <;> rfl
    have h5 : (afterBookkeeping a).errors ≥ 5 := by omega
    unfold demoteStep at h'
    simp only [h3] at h'
    rw [if_pos h5] at h'
    dsimp only at h'
    rw [findAccount_updateAccount_self, h3] at h'
    cases h'
    rfl
  · intro accs p hp
    exact (selectBestAccount_active accs p hp).1
  · intro op s id a a' h he h'
    exact errorSticky_applyOp op s id a h he a' h'

/-- Concrete states for the C4 witness: an active account at 4 errors about
to fail a task, and a pool holding one error-status and one active
account. -/
def c4acct : Account :=
  { status := "active", lastUsed := none, tasksAssigned := 9,
    repliesSent := 2, errors := 4, workload := 1 }

def c4state : AssignerState :=
  { settings := settings0, accounts := [("a", c4acct)], taskQueue := [],
    totalAssignments := 0, totalRepliesSent := 0, totalErrors := 0 }

def c4err : Account :=
  { status := "error", lastUsed := none, tasksAssigned := 0,
    repliesSent := 0, errors := 5, workload := 0 }

def c4state2 : AssignerState :=
  { settings := settings0,
    accounts := [("e", c4err),
                 ("b", { status := "active", lastUsed := none, tasksAssigned := 0,
                         repliesSent := 0, errors := 0, workload := 3 })],
    taskQueue := [], totalAssignments := 0, totalRepliesSent := 0, totalErrors := 0 }

/-- Witness for C4: the concrete account at 4 errors is demoted to
`"error"` by the next `handleTaskError`, and the concrete error-status
account is still in `"error"` after an assignment operation. -/
theorem error_demotion_and_exclusion_witness :
    (findAccount "a"
      (handleTaskError { tweetId := 1, accountId := "a", retryCount := 0 } "boom"
        c4state).1.accounts).map Account.status = some "error" ∧
    (findAccount "e" (applyOp (Op.assign [3]) c4state2).1.accounts).map Account.status =
      some "error" := by
  constructor
  · cases hf : findAccount "a"
        (handleTaskError { tweetId := 1, accountId := "a", retryCount := 0 } "boom"
          c4state).1.accounts with
    | none => exact absurd hf (by decide)
    | some a' =>
      have hst := error_demotion_and_exclusion.1
        { tweetId := 1, accountId := "a", retryCount := 0 } "boom" c4state c4acct
        (by rfl) (by decide) a' hf
      simp [hst]
  · cases hf : findAccount "e" (applyOp (Op.assign [3]) c4state2).1.accounts with
    | none => exact absurd hf (by decide)
    | some a' =>
      have hst := error_demotion_and_exclusion.2.2 (Op.assign [3]) c4state2 "e" c4err a'
        (by rfl) (by rfl) hf
      simp [hst]

/-! ## C10: workload non-negativity -/

/-- C10: every account of a freshly initialized pool has workload 0, and
every dispatcher operation preserves non-negativity of all workloads
(`decreaseWorkload` decrements only under its strict-positivity guard), so
no operation sequence can drive a workload below 0. -/
theorem workload_nonneg_invariant :
    (∀ (configs : List (String × Bool)) (settings : Settings),
      ∀ p ∈ (initializeAssigner configs settings).accounts, p.2.workload = 0) ∧
    (∀ (op : Op) (s : AssignerState),
      workNonneg s.accounts → workNonneg (applyOp op s).1.accounts) := by
  constructor
  · intro configs settings p hp
    simp only [initializeAssigner] at hp
    rw [List.mem_map] at hp
    obtain ⟨c, hc, rfl⟩ := hp
    rfl
  · intro op s h
    cases op with
    | assign ts => exact workNonneg_assignTweets ts s h
    | processNext outcome now =>
      cases hq : s.taskQueue with
      | nil =>
        simp only [applyOp, hq]
        exact h
      | cons t rest =>
        simp only [applyOp, hq]
        exact workNonneg_processTask _ _ _ _ h
    | reset =>
      exact workNonneg_map
        (fun b => { b with tasksAssigned := 0, repliesSent := 0, errors := 0 })
        (fun a ha => ha) s.accounts h
    | clean =>
      intro p hp
      simp [applyOp, cleanup] at hp

/-- Concrete state for the C10 witness. -/
def c10state : AssignerState :=
  { settings := settings0,
    accounts := [("a", { status := "active", lastUsed := none, tasksAssigned := 1,
                         repliesSent := 0, errors := 0, workload := 2 })],
    taskQueue := [], totalAssignments := 1, totalRepliesSent := 0, totalErrors := 0 }

/-- The account record of `c10state` after `resetStats`. -/
def c10after : Account :=
  { status := "active", lastUsed := none, tasksAssigned := 0,
    repliesSent := 0, errors := 0, workload := 2 }

/-- Witness for C10: a freshly initialized account has workload 0, and a
concrete account's workload is still non-negative after an operation. -/
theorem workload_nonneg_invariant_witness :
    ("a", freshAccount).2.workload = 0 ∧ (0 : Int) ≤ ("a", c10after).2.workload := by
  constructor
  · exact workload_nonneg_invariant.1 [("a", true)] settings0 ("a", freshAccount) (by decide)
  · exact workload_nonneg_invariant.2 Op.reset c10state (by unfold workNonneg; decide)
      ("a", c10after) (by decide)

/-! ## C2 and C6: the retry/failure contract of `handleTaskError` -/

def isFailureEvent : AEvent → Bool
  | AEvent.taskFailed _ _ => true
  | _ => false

def isRequeueEvent : AEvent → Bool
  | AEvent.taskRequeued _ => true
  | _ => false

theorem errorBookkeeping_settings (id : String) (s : AssignerState) :
    (errorBookkeeping id s).settings = s.settings := by
  unfold errorBookkeeping
  split <;> rfl

theorem errorBookkeeping_taskQueue (id : String) (s : AssignerState) :
    (errorBookkeeping id s).taskQueue = s.taskQueue := by
  unfold errorBookkeeping
  split <;> rfl

theorem maxRetriesOf_errorBookkeeping (id : String) (s : AssignerState) :
    maxRetriesOf (errorBookkeeping id s) = maxRetriesOf s := by
  unfold maxRetriesOf
  rw [errorBookkeeping_settings]

/-- The demotion check never touches the queue and adds no failure or
requeue event. -/
theorem demoteStep_queue_events (origId : String) (r : AssignerState × List AEvent) :
    (demoteStep origId r).1.taskQueue = r.1.taskQueue ∧
    (demoteStep origId r).2.filter isFailureEvent = r.2.filter isFailureEvent ∧
    (demoteStep origId r).2.filter isRequeueEvent = r.2.filter isRequeueEvent := by
  unfold demoteStep
  split
  · split
    · refine ⟨rfl, ?_, ?_⟩ <;> simp [isFailureEvent, isRequeueEvent]
    · exact ⟨rfl, rfl, rfl⟩
  · exact ⟨rfl, rfl, rfl⟩

/-- C2 as amended: each task-error handling increments `retryCount` by
exactly 1.  While the incremented count is below `maxRetries` (default 3)
no `taskFailed` is emitted; the task is re-enqueued — at the back, with the
incremented count — only when the load-balancing rule picks an account
other than the failed one, and is silently dropped otherwise.  When the
incremented count reaches `maxRetries` exactly one `taskFailed` is emitted
(carrying `retryCount = maxRetries`, so the drop happens when the count
reaches, not exceeds, the bound) and nothing is re-enqueued.  Hence a task
failing on every attempt is reassigned at most `maxRetries - 1` times (2 by
default), not `maxRetries` times. -/
theorem retry_bound_contract (task : Task) (msg : String) (s : AssignerState) :
    (task.retryCount + 1 < maxRetriesOf s →
      (handleTaskError task msg s).2.filter isFailureEvent = [] ∧
      ((handleTaskError task msg s).1.taskQueue = s.taskQueue ∨
        (∃ best, selectBestAccount (errorBookkeeping task.accountId s).accounts = some best ∧
          best.1 ≠ task.accountId ∧
          (handleTaskError task msg s).1.taskQueue =
            s.taskQueue ++ [{ tweetId := task.tweetId, accountId := best.1,
                              retryCount := task.retryCount + 1 }]))) ∧
    (maxRetriesOf s ≤ task.retryCount + 1 →
      (handleTaskError task msg s).2.filter isFailureEvent =
        [AEvent.taskFailed { task with retryCount := task.retryCount + 1 } msg] ∧
      (handleTaskError task msg s).1.taskQueue = s.taskQueue) := by
  have hq2 := errorBookkeeping_taskQueue task.accountId s
  have hm2 := maxRetriesOf_errorBookkeeping task.accountId s
  constructor
  · intro hlt
    unfold handleTaskError
    obtain ⟨hdq, hdf, hdr⟩ := demoteStep_queue_events task.accountId
      (retryStep { task with retryCount := task.retryCount + 1 } task.accountId msg
        (errorBookkeeping task.accountId s))
    rw [hdq, hdf]
    unfold retryStep
    rw [if_pos (by rw [hm2]; exact hlt)]
    cases hbest : selectBestAccount (errorBookkeeping task.accountId s).accounts with
    | none => exact ⟨rfl, Or.inl hq2⟩
    | some best =>
      simp only []
      by_cases hne : best.1 ≠ task.accountId
      · rw [if_pos hne]
        refine ⟨rfl, Or.inr ⟨best, rfl, hne, ?_⟩⟩
        rw [show ({ errorBookkeeping task.accountId s with
            accounts := updateAccount best.1 (fun a => { a with workload := a.workload + 1 })
              (errorBookkeeping task.accountId s).accounts,
            taskQueue := (errorBookkeeping task.accountId s).taskQueue ++
              [{ tweetId := task.tweetId, accountId := best.1,
                 retryCount := task.retryCount + 1 }] } : AssignerState).taskQueue =
          (errorBookkeeping task.accountId s).taskQueue ++
            [{ tweetId := task.tweetId, accountId := best.1,
               retryCount := task.retryCount + 1 }] from rfl]
        rw [hq2]
      · rw [if_neg hne]
        exact ⟨rfl, Or.inl hq2⟩
  · intro hge
    unfold handleTaskError
    obtain ⟨hdq, hdf, hdr⟩ := demoteStep_queue_events task.accountId
      (retryStep { task with retryCount := task.retryCount + 1 } task.accountId msg
        (errorBookkeeping task.accountId s))
    rw [hdq, hdf]
    unfold retryStep
    rw [if_neg (by rw [hm2]; show ¬ task.retryCount + 1 < maxRetriesOf s; omega)]
    exact ⟨by simp [isFailureEvent], hq2⟩

/-- Concrete dispatcher state for the C2 counterexample: two fresh active
accounts, no configured retry bound (so the default 3 applies). -/
def c2state : AssignerState :=
  { settings := settings0, accounts := [("a", freshAccount), ("b", freshAccount)],
    taskQueue := [], totalAssignments := 0, totalRepliesSent := 0, totalErrors := 0 }

/-- C2 counterexample: a freshly assigned task whose only processing
attempt fails is gone after that single attempt — the queue is empty and
not a single event (no `taskRequeued`, no `taskFailed`) was emitted,
because the load-balancing rule re-selected the failed account itself
(both accounts tie at workload 0 and the sort is stable), so the task was
dropped silently.  It is not retried `maxRetries` (3) times and no
`taskFailed` event is ever emitted. -/
theorem retry_bound_counterexample :
    (assignTweets [77] c2state).taskQueue =
      [{ tweetId := 77, accountId := "a", retryCount := 0 }] ∧
    (applyOp (Op.processNext (TaskOutcome.aiFailure "fail") 100)
      (assignTweets [77] c2state)).2 = [] ∧
    (applyOp (Op.processNext (TaskOutcome.aiFailure "fail") 100)
      (assignTweets [77] c2state)).1.taskQueue = [] ∧
    maxRetriesOf c2state = 3 := by
  refine ⟨by decide, by decide, by decide, by decide⟩

/-- Witness for the C2 contract at a concrete input: a task at
`retryCount = 2` failing under the default bound 3 yields exactly one
`taskFailed` carrying `retryCount = 3` and an unchanged (empty) queue. -/
theorem retry_bound_contract_witness :
    (handleTaskError { tweetId := 5, accountId := "a", retryCount := 2 } "boom"
      c2state).2.filter isFailureEvent =
      [AEvent.taskFailed { tweetId := 5, accountId := "a", retryCount := 3 } "boom"] ∧
    (handleTaskError { tweetId := 5, accountId := "a", retryCount := 2 } "boom"
      c2state).1.taskQueue = c2state.taskQueue :=
  (retry_bound_contract { tweetId := 5, accountId := "a", retryCount := 2 } "boom"
    c2state).2 (by decide)

/-- C6 as amended: on a below-bound failure the dispatcher consults the
load-balancing rule over all accounts — it does not exclude the failed
worker.  When the selected account differs from the failed one, the task is
re-enqueued at the back of the FIFO queue with the incremented retry count;
when the rule selects the failed worker itself, the task is dropped: no
re-enqueue, no failure event, no requeue event, even if other active
workers exist.  Only at the bound is the task marked failed with a
`taskFailed` event. -/
theorem reassignment_no_exclusion (task : Task) (msg : String) (s : AssignerState)
    (hlt : task.retryCount + 1 < maxRetriesOf s) :
    (∀ best, selectBestAccount (errorBookkeeping task.accountId s).accounts = some best →
      best.1 ≠ task.accountId →
      (handleTaskError task msg s).1.taskQueue =
        s.taskQueue ++ [{ tweetId := task.tweetId, accountId := best.1,
                          retryCount := task.retryCount + 1 }]) ∧
    (∀ best, selectBestAccount (errorBookkeeping task.accountId s).accounts = some best →
      best.1 = task.accountId →
      (handleTaskError task msg s).1.taskQueue = s.taskQueue ∧
      (handleTaskError task msg s).2.filter isFailureEvent = [] ∧
      (handleTaskError task msg s).2.filter isRequeueEvent = []) := by
  have hq2 := errorBookkeeping_taskQueue task.accountId s
  have hm2 := maxRetriesOf_errorBookkeeping task.accountId s
  obtain ⟨hdq, hdf, hdr⟩ := demoteStep_queue_events task.accountId
    (retryStep { task with retryCount := task.retryCount + 1 } task.accountId msg
      (errorBookkeeping task.accountId s))
  constructor
  · intro best hbest hne
    unfold handleTaskError
    rw [hdq]
    unfold retryStep
    rw [if_pos (by rw [hm2]; exact hlt)]
    simp only [hbest]
    rw [if_pos hne]
    rw [show ({ errorBookkeeping task.accountId s with
        accounts := updateAccount best.1 (fun a => { a with workload := a.workload + 1 })
          (errorBookkeeping task.accountId s).accounts,
        taskQueue := (errorBookkeeping task.accountId s).taskQueue ++
          [{ tweetId := task.tweetId, accountId := best.1,
             retryCount := task.retryCount + 1 }] } : AssignerState).taskQueue =
      (errorBookkeeping task.accountId s).taskQueue ++
        [{ tweetId := task.tweetId, accountId := best.1,
           retryCount := task.retryCount + 1 }] from rfl]
    rw [hq2]
  · intro best hbest heq
    unfold handleTaskError
    rw [hdq] at *
    refine ⟨?_, ?_, ?_⟩
    · unfold retryStep
      rw [if_pos (by rw [hm2]; exact hlt)]
      simp only [hbest]
      rw [if_neg (not_not_intro heq)]
      exact hq2
    · rw [hdf]
      unfold retryStep
      rw [if_pos (by rw [hm2]; exact hlt)]
      simp only [hbest]
      rw [if_neg (not_not_intro heq)]
      rfl
    · rw [hdr]
      unfold retryStep
      rw [if_pos (by rw [hm2]; exact hlt)]
      simp only [hbest]
      rw [if_neg (not_not_intro heq)]
      rfl

/-- Accounts for the C6 counterexample: the failed account carries the one
workload slot of its task; the alternative active account is loaded. -/
def c6a : Account :=
  { status := "active", lastUsed := none, tasksAssigned := 1,
    repliesSent := 0, errors := 0, workload := 1 }

def c6b : Account :=
  { status := "active", lastUsed := none, tasksAssigned := 5,
    repliesSent := 0, errors := 0, workload := 5 }

def c6state : AssignerState :=
  { settings := settings0, accounts := [("a", c6a), ("b", c6b)],
    taskQueue := [], totalAssignments := 0, totalRepliesSent := 0, totalErrors := 0 }

/-- C6 counterexample: the task on account `a` fails with `retryCount + 1`
below the bound while a different active account `b` exists; yet the
dispatcher does not pick `b` — after releasing `a`'s slot, `a` (workload 0)
beats `b` (workload 5) in the load-balancing rule, the `!=` check fails,
and the task vanishes: empty queue, no events at all. -/
theorem reassignment_exclusion_counterexample :
    (handleTaskError { tweetId := 9, accountId := "a", retryCount := 0 } "e"
      c6state).1.taskQueue = [] ∧
    (handleTaskError { tweetId := 9, accountId := "a", retryCount := 0 } "e"
      c6state).2 = [] ∧
    0 + 1 < maxRetriesOf c6state ∧
    ("b", c6b) ∈ c6state.accounts ∧ c6b.status = "active" := by
  refine ⟨by decide, by decide, by decide, by decide, by decide⟩

/-- Witness for the C6 contract: with the failed account still loaded
(workload 3 before release) and a free alternative, the task is re-enqueued
at the back for that alternative with `retryCount` 1. -/
def c6state2 : AssignerState :=
  { settings := settings0,
    accounts := [("a", { status := "active", lastUsed := none, tasksAssigned := 3,
                         repliesSent := 0, errors := 0, workload := 3 }),
                 ("b", freshAccount)],
    taskQueue := [], totalAssignments := 0, totalRepliesSent := 0, totalErrors := 0 }

theorem reassignment_no_exclusion_witness :
    (handleTaskError { tweetId := 4, accountId := "a", retryCount := 0 } "err"
      c6state2).1.taskQueue =
      c6state2.taskQueue ++ [{ tweetId := 4, accountId := "b", retryCount := 0 + 1 }] :=
  (reassignment_no_exclusion { tweetId := 4, accountId := "a", retryCount := 0 } "err"
    c6state2 (by decide)).1 ("b", freshAccount) (by decide) (by decide)

/-! ## C5: workload vs. outstanding tasks (double decrement) -/

/-- Account and state exhibiting the C5 divergence: one active account with
two assigned, unterminated tasks and workload 2. -/
def c5acct : Account :=
  { status := "active", lastUsed := none, tasksAssigned := 2,
    repliesSent := 0, errors := 0, workload := 2 }

def c5state : AssignerState :=
  { settings := settings0, accounts := [("a", c5acct)],
    taskQueue := [{ tweetId := 1, accountId := "a", retryCount := 0 },
                  { tweetId := 2, accountId := "a", retryCount := 0 }],
    totalAssignments := 2, totalRepliesSent := 0, totalErrors := 0 }

/-- C5: processing the first task with a failed AI reply decrements `a`'s
workload twice — `handleTaskError` releases the slot (line 229) and then
line 212 releases it again — leaving workload 0 although one unterminated
task assigned to `a` is still queued; the invariant demands workload 1. -/
theorem workload_double_decrement_bug :
    (findAccount "a"
      (applyOp (Op.processNext (TaskOutcome.aiFailure "x") 100) c5state).1.accounts).map
        Account.workload = some 0 ∧
    queuedFor "a" (applyOp (Op.processNext (TaskOutcome.aiFailure "x") 100) c5state).1 = 1 := by
  refine ⟨by decide, by decide⟩

/-! ## C9: single batched event per cycle, empty batches suppressed, trim -/

theorem processLoop_all_seen (links : List Link) (seen : List Nat)
    (h : ∀ l ∈ links, l.statusId ∈ seen) : (processLoop links seen).2 = [] := by
  induction links generalizing seen with
  | nil => rfl
  | cons l ls ih =>
    have hl : l.statusId ∈ seen := h l (by simp)
    simp only [processLoop, hl, ite_true]
    exact ih seen (fun l' hl' => h l' (List.mem_cons_of_mem _ hl'))

/-- The batch handed to the single per-cycle event (an empty list when the
event is suppressed) is exactly the loop's newly-discovered list. -/
theorem processTweetLinks_batch (links : List Link) (s : ListenerState) :
    ((processTweetLinks links s).2.getD []) = (processLoop links s.processedTweets).2 := by
  simp only [processTweetLinks]
  by_cases h : (processLoop links s.processedTweets).2.length > 0
  · rw [if_pos h]
    rfl
  · rw [if_neg h]
    have he : (processLoop links s.processedTweets).2 = [] := by
      cases hc : (processLoop links s.processedTweets).2 with
      | nil => rfl
      | cons y ys => rw [hc] at h; simp at h
    rw [he]
    rfl

/-- C9: a poll cycle emits at most one event by construction (the result is
one optional batch); the event is suppressed exactly when every extracted
link is already recorded; an emitted batch is non-empty, duplicate-free and
holds exactly the ids that were extracted and not yet recorded; after the
cycle, if the working set exceeds 1,000 ids it is replaced by its most
recent 800 (and only then). -/
theorem processTweetLinks_event_spec (links : List Link) (s : ListenerState) :
    ((processTweetLinks links s).2 = none ↔
      ∀ l ∈ links, l.statusId ∈ s.processedTweets) ∧
    (∀ b, (processTweetLinks links s).2 = some b →
      b ≠ [] ∧ b.Nodup ∧
      (∀ x, x ∈ b ↔ x ∈ links.map Link.statusId ∧ x ∉ s.processedTweets)) ∧
    (1000 < (processLoop links s.processedTweets).1.length →
      (processTweetLinks links s).1.processedTweets =
        (processLoop links s.processedTweets).1.drop
          ((processLoop links s.processedTweets).1.length - 800) ∧
      (processTweetLinks links s).1.processedTweets.length = 800) ∧
    ((processLoop links s.processedTweets).1.length ≤ 1000 →
      (processTweetLinks links s).1.processedTweets =
        (processLoop links s.processedTweets).1) := by
  refine ⟨⟨?_, ?_⟩, ?_, ?_, ?_⟩
  · intro hnone
    by_contra hc
    push_neg at hc
    obtain ⟨l, hl, hfresh⟩ := hc
    have hmem : l.statusId ∈ (processLoop links s.processedTweets).2 :=
      processLoop_covers links s.processedTweets (List.mem_map_of_mem _ hl) hfresh
    have hlen : (processLoop links s.processedTweets).2.length > 0 :=
      List.length_pos.mpr (fun he => by rw [he] at hmem; simp at hmem)
    simp only [processTweetLinks] at hnone
    rw [if_pos hlen] at hnone
    simp at hnone
  · intro hall
    have hgone := processLoop_all_seen links s.processedTweets hall
    simp only [processTweetLinks]
    rw [if_neg (by rw [hgone]; simp)]
  · intro b hb
    have hbatch : b = (processLoop links s.processedTweets).2 := by
      have hx := processTweetLinks_batch links s
      rw [hb] at hx
      exact hx
    subst hbatch
    have hne : (processLoop links s.processedTweets).2 ≠ [] := by
      intro he
      simp only [processTweetLinks] at hb
      rw [if_neg (by rw [he]; simp)] at hb
      simp at hb
    refine ⟨hne, processLoop_emitted_nodup _ _, ?_⟩
    intro x
    constructor
    · intro hx
      exact ⟨processLoop_emitted_sub _ _ hx, processLoop_emitted_fresh _ _ hx⟩
    · intro ⟨hx1, hx2⟩
      exact processLoop_covers _ _ hx1 hx2
  · intro hlen
    simp only [processTweetLinks, trimProcessed]
    rw [if_pos hlen]
    refine ⟨rfl, ?_⟩
    show (List.drop ((processLoop links s.processedTweets).1.length - 800)
      (processLoop links s.processedTweets).1).length = 800
    rw [List.length_drop]
    omega
  · intro hlen
    simp only [processTweetLinks, trimProcessed]
    rw [if_neg (by omega)]

/-- Witness for C9 at the concrete cycle `[5, 5, 6]` against a record
already holding `6`: the emitted batch is `[5]`. -/
theorem processTweetLinks_event_spec_witness :
    ([5] : List Nat) ≠ [] ∧ ([5] : List Nat).Nodup ∧
    (5 ∈ ([5] : List Nat) ↔
      5 ∈ ([{ statusId := 5 }, { statusId := 5 }, { statusId := 6 }] : List Link).map
            Link.statusId ∧
      (5 : Nat) ∉ ([6] : List Nat)) := by
  obtain ⟨hne, hnd, hiff⟩ :=
    (processTweetLinks_event_spec [{ statusId := 5 }, { statusId := 5 }, { statusId := 6 }]
      { processedTweets := [6], tweetsFound := 0 }).2.1 [5] (by decide)
  exact ⟨hne, hnd, hiff 5⟩

/-! ## C1: dedup idempotence, and its failure under the trim -/

/-- Total number of times id `x` is carried by the emitted batches of a
run. -/
def emittedCount (x : Nat) (batches : List (List Nat)) : Nat :=
  (batches.map (fun b => b.count x)).sum

/-- No trim fires during the run: after each cycle's loop the working set is
still within the 1,000 bound. -/
def noTrimRun : List (List Link) → ListenerState → Prop
  | [], _ => True
  | c :: cs, s =>
    (processLoop c s.processedTweets).1.length ≤ 1000 ∧
    noTrimRun cs (processTweetLinks c s).1

theorem mem_processed_of_noTrim (c : List Link) (s : ListenerState) {x : Nat}
    (hx : x ∈ (processLoop c s.processedTweets).1)
    (hlen : (processLoop c s.processedTweets).1.length ≤ 1000) :
    x ∈ (processTweetLinks c s).1.processedTweets := by
  simp only [processTweetLinks, trimProcessed]
  rw [if_neg (by omega)]
  exact hx

theorem emittedCount_zero_of_mem (cycles : List (List Link)) (s : ListenerState)
    {x : Nat} (hx : x ∈ s.processedTweets) (hnt : noTrimRun cycles s) :
    emittedCount x (runCycles cycles s).2 = 0 := by
  induction cycles generalizing s with
  | nil => rfl
  | cons c cs ih =>
    obtain ⟨hlen, hnt'⟩ := hnt
    have hbatch := processTweetLinks_batch c s
    have hcount : ((processTweetLinks c s).2.getD []).count x = 0 :=
      List.count_eq_zero.mpr (by
        rw [hbatch]
        exact processLoop_not_emitted c s.processedTweets hx)
    show ((processTweetLinks c s).2.getD []).count x +
      emittedCount x (runCycles cs (processTweetLinks c s).1).2 = 0
    rw [hcount,
      ih _ (mem_processed_of_noTrim c s (processLoop_seen_grows c _ hx) hlen) hnt']

/-- C1 as amended: an id already present in the DedupRecord is never
emitted by a cycle (the spec's invariant holds unconditionally), and across
any sequence of poll cycles during which the 1,000-id trim never fires, an
id is emitted at most once.  (The counterexample shows the original
unconditional at-most-once reading fails when the trim evicts the id.) -/
theorem dedup_at_most_once :
    (∀ (links : List Link) (s : ListenerState) (x : Nat) (b : List Nat),
      x ∈ s.processedTweets → (processTweetLinks links s).2 = some b → x ∉ b) ∧
    (∀ (cycles : List (List Link)) (s : ListenerState) (x : Nat),
      noTrimRun cycles s → emittedCount x (runCycles cycles s).2 ≤ 1) := by
  constructor
  · intro links s x b hx hb
    have hbatch := processTweetLinks_batch links s
    rw [hb] at hbatch
    simp only [Option.getD_some] at hbatch
    rw [hbatch]
    exact processLoop_not_emitted links s.processedTweets hx
  · intro cycles s x hnt
    induction cycles generalizing s with
    | nil => exact Nat.zero_le 1
    | cons c cs ih =>
      obtain ⟨hlen, hnt'⟩ := hnt
      have hbatch := processTweetLinks_batch c s
      show ((processTweetLinks c s).2.getD []).count x +
        emittedCount x (runCycles cs (processTweetLinks c s).1).2 ≤ 1
      by_cases hx : x ∈ s.processedTweets
      · have hcount : ((processTweetLinks c s).2.getD []).count x = 0 :=
          List.count_eq_zero.mpr (by
            rw [hbatch]
            exact processLoop_not_emitted c s.processedTweets hx)
        have hrest := emittedCount_zero_of_mem cs (processTweetLinks c s).1
          (mem_processed_of_noTrim c s (processLoop_seen_grows c _ hx) hlen) hnt'
        omega
      · by_cases hxb : x ∈ (processTweetLinks c s).2.getD []
        · have hxmem : x ∈ (processTweetLinks c s).1.processedTweets :=
            mem_processed_of_noTrim c s
              (processLoop_emitted_mem_seen c s.processedTweets
                (by rw [hbatch] at hxb; exact hxb)) hlen
          have hrest := emittedCount_zero_of_mem cs _ hxmem hnt'
          have hone : ((processTweetLinks c s).2.getD []).count x ≤ 1 := by
            apply List.nodup_iff_count_le_one.mp _ x
            rw [hbatch]
            exact processLoop_emitted_nodup _ _
          omega
        · have hcount : ((processTweetLinks c s).2.getD []).count x = 0 :=
            List.count_eq_zero.mpr hxb
          have hrest := ih (processTweetLinks c s).1 hnt'
          omega

set_option maxRecDepth 2500

/-- Links of the middle cycle of the C1 counterexample: 1,000 fresh ids. -/
def c1burst : List Link := (List.range 1000).map (fun n => { statusId := n })

/-- The three-cycle run of the C1 counterexample: id 2000 is extracted in
the first and the third cycle; the middle cycle extracts 1,000 fresh ids. -/
def c1cycles : List (List Link) :=
  [[{ statusId := 2000 }], c1burst, [{ statusId := 2000 }]]

theorem c1burst_map : c1burst.map Link.statusId = List.range 1000 := by
  simp only [c1burst, List.map_map]
  exact List.map_id' _

/-- A cycle of 1,000 links, all fresh with respect to a one-id record,
pushes the working set to 1,001 entries, so the trim fires and keeps only
the most recent 800: the single old id is evicted. -/
theorem burst_cycle (L : List Link) (x t : Nat)
    (hfresh : ∀ l ∈ L, l.statusId ∉ ([x] : List Nat))
    (hnd : (L.map Link.statusId).Nodup)
    (hlen : L.length = 1000) :
    processTweetLinks L { processedTweets := [x], tweetsFound := t } =
      ({ processedTweets := (L.map Link.statusId).drop 200, tweetsFound := t + 1000 },
       some (L.map Link.statusId)) := by
  have hpl := processLoop_fresh_append L [x] hfresh hnd
  have hmlen : (L.map Link.statusId).length = 1000 := by
    rw [List.length_map, hlen]
  have htrim : trimProcessed ([x] ++ L.map Link.statusId) =
      (L.map Link.statusId).drop 200 := by
    unfold trimProcessed
    rw [if_pos (by simp [hmlen])]
    rw [List.singleton_append]
    rw [show (x :: L.map Link.statusId).length - 800 = 200 + 1 from by simp [hmlen]]
    rw [List.drop_succ_cons]
  simp only [processTweetLinks, hpl]
  rw [htrim, hmlen]
  rw [if_pos (by norm_num : (1000 : Nat) > 0)]

/-- A single-link cycle on a fresh id against an 800-entry record appends
the id and emits it; no trim fires. -/
theorem single_cycle (P : List Nat) (x t : Nat) (hx : x ∉ P)
    (hlen : P.length = 800) :
    processTweetLinks [{ statusId := x }] { processedTweets := P, tweetsFound := t } =
      ({ processedTweets := P ++ [x], tweetsFound := t + 1 }, some [x]) := by
  have hpl : processLoop [{ statusId := x }] P = (P ++ [x], [x]) := by
    simp only [processLoop]
    rw [if_neg hx]
  have htrim : trimProcessed (P ++ [x]) = P ++ [x] := by
    unfold trimProcessed
    rw [if_neg (by simp [hlen])]
  simp only [processTweetLinks, hpl]
  rw [htrim]
  simp only [List.length_singleton]
  rw [if_pos (by norm_num : (1 : Nat) > 0)]

theorem c1_not_mem_drop : (2000 : Nat) ∉ (List.range 1000).drop 200 := by
  intro hmem
  have := List.mem_of_mem_drop hmem
  rw [List.mem_range] at this
  omega

theorem c1cycle2 :
    processTweetLinks c1burst { processedTweets := [2000], tweetsFound := 1 } =
      ({ processedTweets := (List.range 1000).drop 200, tweetsFound := 1001 },
       some (List.range 1000)) := by
  have hfresh : ∀ l ∈ c1burst, l.statusId ∉ ([2000] : List Nat) := by
    intro l hl
    simp only [c1burst, List.mem_map] at hl
    obtain ⟨n, hn, rfl⟩ := hl
    rw [List.mem_range] at hn
    simp only [List.mem_singleton]
    omega
  have hnd : (c1burst.map Link.statusId).Nodup := by
    rw [c1burst_map]
    exact List.nodup_range 1000
  have hlen : c1burst.length = 1000 := by
    simp [c1burst]
  have h := burst_cycle c1burst 2000 1 hfresh hnd hlen
  rw [c1burst_map] at h
  exact h

theorem c1cycle3 :
    processTweetLinks [{ statusId := 2000 }]
      { processedTweets := (List.range 1000).drop 200, tweetsFound := 1001 } =
      ({ processedTweets := (List.range 1000).drop 200 ++ [2000], tweetsFound := 1002 },
       some [2000]) := by
  have hlen : ((List.range 1000).drop 200).length = 800 := by
    simp
  exact single_cycle ((List.range 1000).drop 200) 2000 1001 c1_not_mem_drop hlen

/-- C1 counterexample: starting from an empty record, id 2000 is emitted in
cycle 1; the 1,000 fresh ids of cycle 2 push the working set to 1,001, so
it is trimmed to the most recent 800 and id 2000 is evicted; cycle 3 then
emits id 2000 a second time.  The extraction results contain 2000 more than
once, yet it is emitted twice — not at most once. -/
theorem dedup_eviction_counterexample :
    emittedCount 2000
      (runCycles c1cycles { processedTweets := [], tweetsFound := 0 }).2 = 2 := by
  have h1 : processTweetLinks [{ statusId := 2000 }]
      { processedTweets := [], tweetsFound := 0 } =
      ({ processedTweets := [2000], tweetsFound := 1 }, some [2000]) := by rfl
  have hc : (List.range 1000).count 2000 = 0 :=
    List.count_eq_zero.mpr (by simp)
  simp only [c1cycles, runCycles]
  simp only [h1]
  simp only [c1cycle2]
  simp only [c1cycle3]
  simp only [Option.getD_some, emittedCount, List.map_cons, List.map_nil,
    List.sum_cons, List.sum_nil, hc]
  decide

/-- Witness for the amended C1 at a concrete two-cycle run: id 1 appears in
both cycles, no trim fires, and it is emitted exactly at most once; and an
id in the record is not in the emitted batch. -/
theorem dedup_at_most_once_witness :
    (6 : Nat) ∉ ([7] : List Nat) ∧
    emittedCount 1
      (runCycles [[{ statusId := 1 }], [{ statusId := 1 }]]
        { processedTweets := [], tweetsFound := 0 }).2 ≤ 1 := by
  constructor
  · exact dedup_at_most_once.1 [{ statusId := 6 }, { statusId := 7 }]
      { processedTweets := [6], tweetsFound := 0 } 6 [7] (by decide) (by decide)
  · exact dedup_at_most_once.2 [[{ statusId := 1 }], [{ statusId := 1 }]]
      { processedTweets := [], tweetsFound := 0 } 1 ⟨by decide, by decide, trivial⟩

end TwitterCz
